import Mathlib

/-!
# Verification of `version-sync.py`

A shallow embedding of `.github/scripts/version-sync.py` (the whole tool:
Mapping Store, Upstream Version Fetcher, Sync Recorder, CLI dispatcher),
with theorems settling the specification's claims.

Modelling conventions:
* A parsed JSON document is the inductive `Json` below.  The backing file is
  modelled as `Option Json`: `none` means the file does not exist, `some j`
  means the file holds a serialization of `j`.  (Python's `json` module
  round-trips: `json.load` of a file produced by `json.dump j` yields `j`
  again, so the parsed value is a faithful stand-in for the bytes; the byte
  level is recovered explicitly through `dumpJson`, an embedding of
  `json.dump(·, indent=2, ensure_ascii=False)`.)
* JSON numbers are modelled as `Int`; no fractional number appears anywhere
  in this program's data.  Objects are association lists in insertion order,
  mirroring Python dicts (which preserve insertion order; keys of objects
  produced by `json.load` are unique).
* The wall clock (`_now_iso()`) and the network are inputs: each operation
  that reads them takes the timestamp string / the fetched response as an
  explicit argument (`World` below).
* Python exceptions are modelled with `Option`/`Except`: `none`/`.error`
  marks the raising of an exception at the point the source raises it.
-/

/-- A parsed JSON value (the result of Python's `json.load`/`json.loads`). -/
inductive Json where
  | null
  | bool (b : Bool)
  | num (n : Int)
  | str (s : String)
  | arr (xs : List Json)
  | obj (kvs : List (String × Json))

/-- `d.get(k)` on a Python dict represented as an association list
(`none` = key absent, i.e. Python `None` default). -/
def jlookup (kvs : List (String × Json)) (k : String) : Option Json :=
  (kvs.find? (fun p => p.1 == k)).map (fun p => p.2)

/-- `d[k] = v` on a Python dict: updating an existing key keeps its position,
a new key is appended at the end (insertion order). -/
def dictSet (kvs : List (String × Json)) (k : String) (v : Json) :
    List (String × Json) :=
  if kvs.any (fun p => p.1 == k) then
    kvs.map (fun p => if p.1 == k then (k, v) else p)
  else
    kvs ++ [(k, v)]

/-- Python's `xs[-n:]`: the trailing `n` elements (all of `xs` when shorter). -/
def lastN (n : Nat) (xs : List α) : List α :=
  xs.drop (xs.length - n)

/-- `MAX_HISTORY = 20` (source line 27). -/
def MAX_HISTORY : Nat := 20

/-- The `description` field of `SCHEMA_TEMPLATE` (source line 16). -/
def descDefault : String := "版本映射配置文件 - 用于管理上游版本与 NAD 版本的对应关系"

/-- The `last_sync` placeholder of `SCHEMA_TEMPLATE` (source lines 19-24):
all four SyncEvent fields empty strings. -/
def placeholderLastSync : Json :=
  .obj [("timestamp", .str ""), ("upstream_version", .str ""),
        ("nad_version", .str ""), ("trigger_type", .str "")]

/-- The in-memory shape of the record after `_ensure_schema` (and of
`dict(SCHEMA_TEMPLATE)`): a dict with exactly the four template keys, in
template order.  `_ensure_schema` starts from `dict(SCHEMA_TEMPLATE)` and
only ever assigns these four keys, so the shape is forced by the source. -/
structure VRecord where
  description : Json
  version_mappings : List (String × Json)
  sync_history : List Json
  last_sync : Json

/-- The dict this record denotes (key order as in `SCHEMA_TEMPLATE`). -/
def VRecord.toJson (r : VRecord) : Json :=
  .obj [("description", r.description),
        ("version_mappings", .obj r.version_mappings),
        ("sync_history", .arr r.sync_history),
        ("last_sync", r.last_sync)]

/-- `dict(SCHEMA_TEMPLATE)`: the fresh default record. -/
def defaultRecord : VRecord :=
  { description := .str descDefault
    version_mappings := []
    sync_history := []
    last_sync := placeholderLastSync }

/-- One element of a sequence being coerced by Python `dict(...)`: it must
itself be a two-item sequence with a hashable first item.  A two-element
list `[k, v]` gives the pair `(k, v)`; a two-character string `"ab"` gives
`('a', 'b')`; a two-key mapping gives its pair of keys; every other shape
raises (`ValueError` for wrong lengths, `TypeError` for non-iterables and
unhashable keys), modelled as `none`.  A two-element list whose key is
`None`, a boolean or a number builds a dict with a non-string key in
Python; such keys lie outside this string-keyed record model and the
element is mapped to `none` here — theorems that quantify over arbitrary
backing files therefore carry the explicit `fileVmSafe` hypothesis
excluding that shape (see below). -/
def pyPair : Json → Option (String × Json)
  | .arr [.str k, v] => some (k, v)
  | .str s =>
      match s.data with
      | [a, b] => some (String.mk [a], .str (String.mk [b]))
      | _ => none
  | .obj [(k1, _), (k2, _)] => some (k1, .str k2)
  | _ => none

/-- Python `dict(x)` applied to a JSON-parsed value `x` (source line 39
`dict(raw.get("version_mappings", {}))`).  A mapping is copied; a list is
coerced element-wise through `pyPair`, failing at the first bad element
exactly as the Python build does; an empty string gives the empty dict and
a nonempty one raises; `None`, booleans and numbers raise `TypeError`.
(Duplicate keys in a coerced pair list are kept here where Python's dict
build overwrites; no theorem below distinguishes the two: only emptiness,
string-key lookups and the entries' values are ever observed.) -/
def pyDict : Json → Option (List (String × Json))
  | .obj kvs => some kvs
  | .arr xs => xs.mapM pyPair
  | .str "" => some []
  | _ => none

/-- Does this sequence element avoid the one `dict()`-coercible shape the
record model cannot represent (a two-element list whose key is `None`, a
boolean or a number, which Python accepts as a non-string dict key)? -/
def pairKeySafe : Json → Bool
  | .arr [k, _] =>
      match k with
      | .null => false
      | .bool _ => false
      | .num _ => false
      | _ => true
  | _ => true

/-- Is this raw `version_mappings` value within the model's faithful
domain for `dict()` coercion?  Everything except a list holding a
non-string-keyed pair qualifies. -/
def vmSafe : Json → Bool
  | .arr xs => xs.all pairKeySafe
  | _ => true

/-- Is this backing file within the model's faithful domain: its raw
`version_mappings` value (when the file parses to a mapping at all) never
exercises Python's non-string dict keys?  Every file the tool itself
writes, and every data-model state (where `version_mappings` is a
mapping), satisfies this. -/
def fileVmSafe : Option Json → Bool
  | some (.obj kvs) => vmSafe ((jlookup kvs "version_mappings").getD (.obj []))
  | _ => true

/-- Source lines 36-38: keep `description` if present, else the template's. -/
def descOf (kvs : List (String × Json)) : Json :=
  (jlookup kvs "description").getD (.str descDefault)

/-- Source lines 41-45: a list value keeps its trailing `MAX_HISTORY`
elements, any other type becomes the empty list. -/
def histOf (kvs : List (String × Json)) : List Json :=
  match (jlookup kvs "sync_history").getD (.arr []) with
  | .arr xs => lastN MAX_HISTORY xs
  | _ => []

/-- Source lines 47-54: a mapping value is rebuilt keeping only the four
SyncEvent fields (missing ones default to `""`); any other type leaves the
template placeholder in place. -/
def lastSyncOf (kvs : List (String × Json)) : Json :=
  match (jlookup kvs "last_sync").getD (.obj []) with
  | .obj m =>
      .obj [("timestamp", (jlookup m "timestamp").getD (.str "")),
            ("upstream_version", (jlookup m "upstream_version").getD (.str "")),
            ("nad_version", (jlookup m "nad_version").getD (.str "")),
            ("trigger_type", (jlookup m "trigger_type").getD (.str ""))]
  | _ => placeholderLastSync

/-- `_ensure_schema(raw)` (source lines 34-57).  `none` means the function
raised: `dict()` on an uncoercible `version_mappings` value raises
`TypeError`/`ValueError`, and on a non-dict `raw` the attribute accesses
raise.  (The caller catches this, see `loadVersionMapping`.) -/
def ensureSchema (raw : Json) : Option VRecord :=
  match raw with
  | .obj kvs =>
      match pyDict ((jlookup kvs "version_mappings").getD (.obj [])) with
      | some vm =>
          some { description := descOf kvs
                 version_mappings := vm
                 sync_history := histOf kvs
                 last_sync := lastSyncOf kvs }
      | none => none
  | _ => none

/-- `load_version_mapping()` (source lines 60-71): a missing file gives a
fresh `dict(SCHEMA_TEMPLATE)`; a present file is parsed and normalized; any
exception while reading/normalizing is caught and the fresh template
returned. -/
def loadVersionMapping : Option Json → VRecord
  | none => defaultRecord
  | some raw => (ensureSchema raw).getD defaultRecord

/-- The SyncEvent dict built at source lines 88-93: field order as written
there; `trigger_type or "auto"` defaults an empty label to `"auto"`. -/
def mkEvent (now u n t : String) : Json :=
  .obj [("timestamp", .str now),
        ("upstream_version", .str u),
        ("nad_version", .str n),
        ("trigger_type", .str (if t = "" then "auto" else t))]

/-- Does `sync.get("upstream_version") != upstream_version` compare equal,
i.e. is this entry removed by the de-duplication at source line 95?  Python
removes exactly the entries whose `upstream_version` value is the string
`u`; a missing key gives `None` and any non-string value also compares
unequal, so both are kept. -/
def upstreamIs (e : Json) (u : String) : Bool :=
  match e with
  | .obj m =>
      match jlookup m "upstream_version" with
      | some (.str s) => s == u
      | _ => false
  | _ => false

/-- The list comprehension at source line 95.  `sync.get(...)` raises
`AttributeError` on a non-dict entry, aborting the whole comprehension:
`none` models that. -/
def filterHistory : List Json → String → Option (List Json)
  | [], _ => some []
  | e :: es, u =>
      match e with
      | .obj m => do
          let rest ← filterHistory es u
          if upstreamIs (.obj m) u then pure rest else pure (.obj m :: rest)
      | _ => none

/-- The body of `save_version_mapping` after the load (source lines 86-98):
set the mapping, build the event, de-duplicate, append, truncate to the
last `MAX_HISTORY`, set `last_sync`. -/
def saveBody (u n t now : String) (d : VRecord) : Except String VRecord :=
  match filterHistory d.sync_history u with
  | none => .error "AttributeError: 'sync_history' entry is not a mapping"
  | some h =>
      let ev := mkEvent now u n t
      .ok { d with
              version_mappings := dictSet d.version_mappings u (.str n)
              sync_history := lastN MAX_HISTORY (h ++ [ev])
              last_sync := ev }

/-- `save_version_mapping(upstream_version, nad_version, trigger_type)`
(source lines 80-104): the two validation checks run before any file I/O
(source lines 81-84), then the record is loaded, transformed and written.
`.ok r` means `_write_mapping` overwrites the file with `r`; `.error` means
a `ValueError`/`AttributeError` was raised and nothing was written. -/
def saveVersionMapping (u n t now : String) (file : Option Json) :
    Except String VRecord :=
  if u = "" then .error "缺少上游版本号"
  else if n = "" then .error "缺少 NAD 版本号"
  else saveBody u n t now (loadVersionMapping file)

/-- Python truthiness of a JSON-parsed value (`None`, `False`, `0`, `""`,
`[]`, `{}` are falsy). -/
def pyFalsy : Json → Bool
  | .null => true
  | .bool b => !b
  | .num n => n == 0
  | .str s => s == ""
  | .arr xs => xs.isEmpty
  | .obj kvs => kvs.isEmpty

/-- Python `s.lstrip("v")`: remove every leading character drawn from the
set `{'v'}`, i.e. drop the maximal leading run of `'v'`s. -/
def lstripV (s : String) : String :=
  String.mk (s.data.dropWhile (fun c => c == 'v'))

/-- The tag extraction of `get_upstream_version` (source lines 130-137)
applied to a successfully fetched and JSON-parsed response body:
`(release_data.get("tag_name") or "").lstrip("v")`, returned only when
nonempty (truthy).  `none` covers the raising paths (`.get` on a non-dict
body, `.lstrip` on a truthy non-string tag), which the source catches and
turns into `return None`, as well as an empty stripped tag. -/
def extractUpstreamVersion (body : Json) : Option String :=
  match body with
  | .obj kvs =>
      let tag := (jlookup kvs "tag_name").getD .null
      let tag := if pyFalsy tag then .str "" else tag
      match tag with
      | .str s =>
          let v := lstripV s
          if v = "" then none else some v
      | _ => none
  | _ => none

mutual

/-- Python `repr()` of a JSON-parsed value, as interpolated by the f-string
at source line 155 for non-string field values (str() of containers and
scalars; the string case here is the nested-repr with quotes).  Escaping
inside nested string reprs is not reproduced (no theorem below inspects a
rendered line containing a nested container). -/
def pyRepr : Json → String
  | .null => "None"
  | .bool true => "True"
  | .bool false => "False"
  | .num n => toString n
  | .str s => "'" ++ s ++ "'"
  | .arr xs => "[" ++ pyReprList xs ++ "]"
  | .obj kvs => "\x7b" ++ pyReprPairs kvs ++ "\x7d"

def pyReprList : List Json → String
  | [] => ""
  | [x] => pyRepr x
  | x :: xs => pyRepr x ++ ", " ++ pyReprList xs

def pyReprPairs : List (String × Json) → String
  | [] => ""
  | [p] => "'" ++ p.1 ++ "': " ++ pyRepr p.2
  | p :: ps => "'" ++ p.1 ++ "': " ++ pyRepr p.2 ++ ", " ++ pyReprPairs ps

end

/-- Python `str()` as used by f-string interpolation: strings verbatim,
everything else via `repr`-like rendering. -/
def pyStrTop : Json → String
  | .str s => s
  | j => pyRepr j

/-- One history line of `list_mappings` (source line 155):
`entry['timestamp']` etc. raise `KeyError` on a missing field and
`TypeError` when the entry is not a dict; the interpolations are evaluated
left to right. -/
def entryLine (idx : Nat) (e : Json) : Except String String :=
  match e with
  | .obj m =>
      match jlookup m "timestamp" with
      | none => .error "KeyError: timestamp"
      | some ts =>
        match jlookup m "upstream_version" with
        | none => .error "KeyError: upstream_version"
        | some uv =>
          match jlookup m "nad_version" with
          | none => .error "KeyError: nad_version"
          | some nv =>
            match jlookup m "trigger_type" with
            | none => .error "KeyError: trigger_type"
            | some tt =>
                let i := toString idx
                let tsS := pyStrTop ts
                let uvS := pyStrTop uv
                let nvS := pyStrTop nv
                let ttS := pyStrTop tt
                .ok s!"  {i}. {tsS} :: {uvS} -> {nvS} ({ttS})"
  | _ => .error "TypeError: entry is not a mapping"

/-- Stable insertion of a mapping item into a key-sorted list: equal keys
keep their original relative order.  Python's `sorted` on `dict.items()` is
a stable sort comparing tuples, and since dict keys are unique the
comparison is decided by the key, so any stable by-key sort coincides with
it (a duplicate-key association list is not the image of any Python dict,
so the tie behavior is immaterial). -/
def insertByKey (p : String × Json) : List (String × Json) → List (String × Json)
  | [] => [p]
  | q :: qs => if p.1 < q.1 then p :: q :: qs else q :: insertByKey p qs

/-- `sorted(mappings.items())` (source line 159). -/
def sortByKey (kvs : List (String × Json)) : List (String × Json) :=
  kvs.foldl (fun acc p => insertByKey p acc) []

/-- One mapping line of `list_mappings` (source lines 160-162): the status
marker `OK` flags a downstream value equal to the upstream key plus the
literal suffix `-no-aja` (a non-string value never matches). -/
def mappingLine (p : String × Json) : String :=
  let okFlag : Bool :=
    match p.2 with
    | .str s => (p.1 ++ "-no-aja") == s
    | _ => false
  let status := if okFlag then "OK" else "  "
  let up := p.1
  let nadS := pyStrTop p.2
  s!"  [{status}] {up} -> {nadS}"

/-- The notice printed by `list_mappings` on an empty store (source
line 148). -/
def noDataNotice : String := "暂无版本映射数据。使用 `save-mapping` 命令先创建记录。"

/-- `list_mappings()` (source lines 142-161): pure read; returns the lines
printed to stdout, or `.error` when an uncaught exception escapes (a
history entry that is not a dict or lacks a SyncEvent field; the lines
printed before the raise are then lost together with the report, and the
process dies with status 1).  The history section is rendered
most-recent-first with indices from 1; the mapping section is rendered
sorted by upstream key. -/
def listMappings (file : Option Json) : Except String (List String) :=
  let d := loadVersionMapping file
  if d.sync_history.isEmpty && d.version_mappings.isEmpty then
    .ok [noDataNotice]
  else
    let mapSection :=
      if d.version_mappings.isEmpty then []
      else "\n当前映射：" :: (sortByKey d.version_mappings).map mappingLine
    if d.sync_history.isEmpty then .ok mapSection
    else
      match (d.sync_history.reverse.enumFrom 1).mapM
          (fun p => entryLine p.1 p.2) with
      | .ok ls => .ok (("版本映射历史（最近记录优先）：" :: ls) ++ mapSection)
      | .error e => .error e

/-- Hexadecimal digit. -/
def hexDigit (n : Nat) : Char :=
  if n < 10 then Char.ofNat (48 + n) else Char.ofNat (87 + n)

/-- `json.dump`'s escaping of one character with `ensure_ascii=False`:
only the quote, the backslash and control characters below `0x20` are
escaped; everything else (non-ASCII included) is emitted literally. -/
def escChar (c : Char) : String :=
  if c = '"' then "\\\""
  else if c = '\\' then "\\\\"
  else if c = '\n' then "\\n"
  else if c = '\t' then "\\t"
  else if c = '\r' then "\\r"
  else if c = '\x08' then "\\b"
  else if c = '\x0c' then "\\f"
  else if c.toNat < 32 then
    "\\u00" ++ String.singleton (hexDigit (c.toNat / 16))
            ++ String.singleton (hexDigit (c.toNat % 16))
  else String.singleton c

/-- A JSON string literal as `json.dump(..., ensure_ascii=False)` writes it. -/
def dumpStr (s : String) : String :=
  "\"" ++ String.join (s.toList.map escChar) ++ "\""

/-- `n` spaces. -/
def pad (n : Nat) : String := String.mk (List.replicate n ' ')

mutual

/-- `json.dump(data, handle, indent=2, ensure_ascii=False)` (source
line 77): the exact text written to the backing file, at indentation depth
`ind` (the file is written with `ind = 0`).  With an `indent`, every
container item starts on its own line at the deeper indentation, the
separators are `","` + newline and `": "`, and empty containers print as
`[]` / `{}`. -/
def dumpJson (ind : Nat) : Json → String
  | .null => "null"
  | .bool true => "true"
  | .bool false => "false"
  | .num n => toString n
  | .str s => dumpStr s
  | .arr [] => "[]"
  | .arr (x :: xs) =>
      "[\n" ++ pad (ind + 2) ++ dumpJson (ind + 2) x
            ++ dumpArrItems (ind + 2) xs ++ "\n" ++ pad ind ++ "]"
  | .obj [] => "\x7b\x7d"
  | .obj (p :: ps) =>
      "\x7b\n" ++ pad (ind + 2) ++ dumpStr p.1 ++ ": " ++ dumpJson (ind + 2) p.2
               ++ dumpObjItems (ind + 2) ps ++ "\n" ++ pad ind ++ "\x7d"

def dumpArrItems (ind : Nat) : List Json → String
  | [] => ""
  | x :: xs => ",\n" ++ pad ind ++ dumpJson ind x ++ dumpArrItems ind xs

def dumpObjItems (ind : Nat) : List (String × Json) → String
  | [] => ""
  | p :: ps => ",\n" ++ pad ind ++ dumpStr p.1 ++ ": " ++ dumpJson ind p.2
                     ++ dumpObjItems ind ps

end

/-- The bytes `_write_mapping` puts in the backing file for a record
(source lines 74-77). -/
def writeBytes (r : VRecord) : String := dumpJson 0 r.toJson

/-- A parsed subcommand (`build_parser`, source lines 164-183). -/
inductive Cmd where
  | getUpstream
  | saveMapping (u n t : String)
  | listCmd

/-- The observable outcome of `parser.parse_args(argv)`:
`help` = argparse printed a help text and raised `SystemExit(0)`;
`err` = argparse printed usage plus an error to stderr and raised
`SystemExit(2)`; `ok c` = a `Namespace` was returned, with `c = none` when
no subcommand was selected (`dest="command"` is not required). -/
inductive Parsed where
  | help
  | err
  | ok (c : Option Cmd)

/-- Does this token start with a dash (`argparse`'s test for an optional
argument; a lone `-` counts as positional)? -/
def startsDash (a : String) : Bool :=
  match a.data with
  | c :: _ => c == '-'
  | [] => false

/-- Is this token the help option?  `argparse` accepts `-h`, `--help` and
any unambiguous prefix of `--help` of length at least 3 (`--h`, `--he`,
`--hel`). -/
def isHelpTok (a : String) : Bool :=
  a == "-h" || (3 ≤ a.length && a.data.isPrefixOf "--help".data)

/-- The name part of an option token (everything before the first `=`). -/
def optName (a : String) : String :=
  String.mk (a.data.takeWhile (fun c => c != '='))

/-- Does the option token carry an inline `=value`? -/
def optEq (a : String) : Bool :=
  a.data.contains '='

/-- The inline value of an option token (everything after the first `=`). -/
def optVal (a : String) : String :=
  String.mk ((a.data.dropWhile (fun c => c != '=')).drop 1)

/-- Is this token `--trigger-type` or one of argparse's unambiguous
abbreviations of it (any prefix of length at least 3; no such prefix is
shared with `--help`)? -/
def isTriggerTok (a : String) : Bool :=
  3 ≤ a.length && a.data.isPrefixOf "--trigger-type".data

/-- The positional region of `save-mapping` after the first bare `--`
separator (`pos` holds positionals collected before it, `rest` the tokens
after it).  Mirrors CPython 3.11 argparse as observed: a `--` that is the
last remaining token is rejected (exit 2); a region ending in a second
`--` with exactly one other positional makes argparse hand an empty list
for `nad_version`, whose falsiness the recorder turns into the
missing-argument error — modelled as an empty `nad_version` string, which
takes the same path; a second `--` strictly inside the region is
rejected; otherwise the tokens are literal positionals, of which exactly
two must remain. -/
def parseSavePos (pos : List String) (t : String) (rest : List String) : Parsed :=
  match rest with
  | [] => .err
  | _ =>
      if rest.getLast? = some "--" then
        match pos ++ rest.dropLast with
        | [u] => .ok (some (.saveMapping u "" t))
        | _ => .err
      else if (rest.drop 1).contains "--" then .err
      else
        match pos ++ rest with
        | [u, n] => .ok (some (.saveMapping u n t))
        | _ => .err

/-- Argument parsing of the `save-mapping` subparser (source lines
172-181): two required positionals `upstream_version` and `nad_version`,
one option `--trigger-type` defaulting to `"manual"`, plus `-h`/`--help`
and argparse's unambiguous option-prefix abbreviation (`--t`, `--trig`,
..., with or without an inline `=value`).  A missing option value, or a
next token that itself looks like an option (a lone `-` is accepted as a
value), is rejected with exit status 2, as observed on CPython 3.11. -/
def parseSaveArgs : List String → List String → String → Parsed
  | [], pos, t =>
      match pos with
      | [u, n] => .ok (some (.saveMapping u n t))
      | _ => .err
  | a :: as, pos, t =>
      if a == "--" then parseSavePos pos t as
      else if startsDash a && a != "-" then
        if isHelpTok a then .help
        else if isTriggerTok (optName a) then
          if optEq a then parseSaveArgs as pos (optVal a)
          else
            match as with
            | v :: as2 =>
                if startsDash v && v != "-" then .err
                else parseSaveArgs as2 pos v
            | [] => .err
        else .err
      else parseSaveArgs as (pos ++ [a]) t

/-- Argument parsing of a no-argument subparser (`get-upstream`, `list`),
scanned left to right: a help token prints the subparser help and exits
0; anything else — an extra positional, an unknown option, or a bare
`--` — is rejected with exit status 2, as observed on CPython 3.11. -/
def parseNoArgs (c : Cmd) : List String → Parsed
  | [] => .ok (some c)
  | a :: _ => if isHelpTok a then .help else .err

/-- Dispatch on the value of the `command` positional. -/
def parseCommandTok (a : String) (rest : List String) : Parsed :=
  if a == "get-upstream" then parseNoArgs .getUpstream rest
  else if a == "list" then parseNoArgs .listCmd rest
  else if a == "save-mapping" then parseSaveArgs rest [] "manual"
  else .err

/-- The top-level parse of `parser.parse_args(argv)` (source lines
164-191): the first positional selects the subcommand, and an
unrecognized value is an `invalid choice` error (usage plus message to
stderr, exit status 2); a leading help token prints the top-level help
and exits 0; any other leading option token — including a bare `--`,
which CPython 3.11 argparse rejects here — exits 2.  With no positional
at all the namespace carries `command=None`. -/
def parseArgs : List String → Parsed
  | [] => .ok none
  | a :: rest =>
      if startsDash a && a != "-" then
        if isHelpTok a then .help else .err
      else parseCommandTok a rest

/-- The ambient inputs of one process invocation: the backing file, the
result of the `curl` fetch (`none` = transport failure or unparseable
body, `some body` = the parsed JSON response), and the value `_now_iso()`
returns during this run. -/
structure World where
  file : Option Json
  upstream : Option Json
  now : String

/-- `main(argv)` (source lines 186-215) composed with the Python
interpreter's treatment of an uncaught exception (exit status 1): returns
the process exit status and the backing file afterwards.  An empty `argv`
prints the help and returns 0 before parsing; `SystemExit` from argparse
carries its own status; `save-mapping` catches any exception from
`save_version_mapping` and returns 1; an exception escaping
`list_mappings` is uncaught. -/
def mainRun (argv : List String) (w : World) : Nat × Option Json :=
  if argv.isEmpty then (0, w.file)
  else
    match parseArgs argv with
    | .help => (0, w.file)
    | .err => (2, w.file)
    | .ok none => (0, w.file)
    | .ok (some .getUpstream) =>
        match w.upstream.bind extractUpstreamVersion with
        | some _ => (0, w.file)
        | none => (1, w.file)
    | .ok (some (.saveMapping u n t)) =>
        match saveVersionMapping u n t w.now w.file with
        | .ok r => (0, some r.toJson)
        | .error _ => (1, w.file)
    | .ok (some .listCmd) =>
        match listMappings w.file with
        | .ok _ => (0, w.file)
        | .error _ => (1, w.file)

/-- One `record(...)` invocation's inputs: versions, trigger label, and the
timestamp `_now_iso()` produces during that run. -/
structure Call where
  u : String
  n : String
  t : String
  now : String

/-- The SyncEvent a call appends. -/
def Call.event (c : Call) : Json := mkEvent c.now c.u c.n c.t

/-- One sequential `save-mapping` process invocation acting on the backing
file: on success the file is overwritten with the new record, on a raised
exception it is left untouched. -/
def recordOnce (f : Option Json) (c : Call) : Option Json :=
  match saveVersionMapping c.u c.n c.t c.now f with
  | .ok r => some r.toJson
  | .error _ => f

/-- `N` sequential `record(...)` invocations. -/
def runCalls (cs : List Call) (f : Option Json) : Option Json :=
  cs.foldl recordOnce f

/-- The same step on the in-memory record (the part of a successful save
after the load; a failing save leaves the record unchanged). -/
def recordStep (d : VRecord) (c : Call) : VRecord :=
  match saveBody c.u c.n c.t c.now d with
  | .ok r => r
  | .error _ => d

/-- `N` sequential steps on the in-memory record. -/
def runSteps (cs : List Call) (d : VRecord) : VRecord :=
  cs.foldl recordStep d

/-- Is every history entry a mapping?  This is the well-formedness the data
model guarantees (`sync_history` is a sequence of SyncEvents); the tool's
own writes only ever produce such histories. -/
def allObjs (xs : List Json) : Bool :=
  xs.all (fun e => match e with | .obj _ => true | _ => false)

/-- Does this history entry carry all four SyncEvent fields (so that
`list_mappings` can render it)? -/
def eventKeysOk (e : Json) : Bool :=
  match e with
  | .obj m =>
      (jlookup m "timestamp").isSome && (jlookup m "upstream_version").isSome
        && (jlookup m "nad_version").isSome && (jlookup m "trigger_type").isSome
  | _ => false

/-- The backing files reachable through the tool's own operations, paired
with the list of SyncEvents appended so far: the file starts out absent,
`get-upstream` and `list` never write, a failing `save-mapping` leaves the
file untouched (so reachability is preserved without a constructor), and a
successful `save-mapping` overwrites the file and appends its event. -/
inductive Reach : Option Json → List Json → Prop where
  | init : Reach none []
  | save {f evs u n t now r} : Reach f evs →
      saveVersionMapping u n t now f = .ok r →
      Reach (some r.toJson) (evs ++ [mkEvent now u n t])

theorem lastN_length (n : Nat) (xs : List α) :
    (lastN n xs).length = xs.length - (xs.length - n) := by
  simp [lastN]

theorem lastN_length_le (n : Nat) (xs : List α) : (lastN n xs).length ≤ n := by
  rw [lastN_length]; omega

theorem lastN_eq_self {n : Nat} {xs : List α} (h : xs.length ≤ n) :
    lastN n xs = xs := by
  simp [lastN, Nat.sub_eq_zero_of_le h]

theorem lastN_append (n : Nat) (A B : List α) :
    lastN n (A ++ B) = lastN (n - B.length) A ++ lastN n B := by
  unfold lastN
  rw [List.drop_append_eq_append_drop, List.length_append]
  by_cases h : n ≤ B.length
  · have h2 : A.length + B.length - n - A.length = B.length - n := by omega
    have h3 : n - B.length = 0 := by omega
    rw [List.drop_eq_nil_of_le (by omega), h3, Nat.sub_zero,
        List.drop_eq_nil_of_le (le_refl A.length), h2]
  · have h1 : A.length + B.length - n = A.length - (n - B.length) := by omega
    have h2 : A.length + B.length - n - A.length = B.length - n := by omega
    rw [h2, h1]

theorem lastN_lastN {m n : Nat} (h : m ≤ n) (xs : List α) :
    lastN m (lastN n xs) = lastN m xs := by
  unfold lastN
  rw [List.drop_drop]
  congr 1
  rw [List.length_drop]
  omega

theorem mem_lastN {e : α} {n : Nat} {xs : List α} (h : e ∈ lastN n xs) :
    e ∈ xs :=
  List.drop_subset _ _ h

theorem filterHistory_eq_filter {h : List Json} {u : String} {l : List Json}
    (hf : filterHistory h u = some l) :
    l = h.filter (fun e => !upstreamIs e u) := by
  induction h generalizing l with
  | nil =>
      simp only [filterHistory, Option.some.injEq] at hf
      simp [← hf]
  | cons e es ih =>
      cases e with
      | obj m =>
          simp only [filterHistory, Option.bind_eq_bind, Option.bind] at hf
          cases hrest : filterHistory es u with
          | none => rw [hrest] at hf; simp at hf
          | some rest =>
              rw [hrest] at hf
              by_cases hu : upstreamIs (.obj m) u
              · simp [hu, pure] at hf
                simp [List.filter, hu, ← hf, ih hrest]
              · simp [hu, pure] at hf
                simp [List.filter, hu, ← hf, ih hrest]
      | null => simp [filterHistory] at hf
      | bool b => simp [filterHistory] at hf
      | num n => simp [filterHistory] at hf
      | str s => simp [filterHistory] at hf
      | arr xs => simp [filterHistory] at hf

theorem filterHistory_some_allObjs {h : List Json} {u : String} {l : List Json}
    (hf : filterHistory h u = some l) : allObjs h = true := by
  induction h generalizing l with
  | nil => rfl
  | cons e es ih =>
      cases e with
      | obj m =>
          simp only [filterHistory, Option.bind_eq_bind, Option.bind] at hf
          cases hrest : filterHistory es u with
          | none => rw [hrest] at hf; simp at hf
          | some rest =>
              simp [allObjs, List.all_cons]
              have := ih hrest
              simpa [allObjs] using this
      | null => simp [filterHistory] at hf
      | bool b => simp [filterHistory] at hf
      | num n => simp [filterHistory] at hf
      | str s => simp [filterHistory] at hf
      | arr xs => simp [filterHistory] at hf

theorem filterHistory_of_allObjs {h : List Json} {u : String}
    (ha : allObjs h = true) :
    filterHistory h u = some (h.filter (fun e => !upstreamIs e u)) := by
  induction h with
  | nil => rfl
  | cons e es ih =>
      simp only [allObjs, List.all_cons, Bool.and_eq_true] at ha
      cases e with
      | obj m =>
          have := ih (by simpa [allObjs] using ha.2)
          by_cases hu : upstreamIs (.obj m) u
          · simp [filterHistory, this, hu, pure, List.filter]
          · simp [filterHistory, this, hu, pure, List.filter]
      | null => simp at ha
      | bool b => simp at ha
      | num n => simp at ha
      | str s => simp at ha
      | arr xs => simp at ha

theorem ensureSchema_toJson (r : VRecord) :
    ensureSchema r.toJson = some
      { description := r.description
        version_mappings := r.version_mappings
        sync_history := lastN MAX_HISTORY r.sync_history
        last_sync := lastSyncOf [("description", r.description),
          ("version_mappings", .obj r.version_mappings),
          ("sync_history", .arr r.sync_history),
          ("last_sync", r.last_sync)] } := rfl

theorem lastSyncOf_toJson (r : VRecord) (ts u n t : String)
    (hl : r.last_sync = .obj [("timestamp", .str ts),
      ("upstream_version", .str u), ("nad_version", .str n),
      ("trigger_type", .str t)]) :
    lastSyncOf [("description", r.description),
      ("version_mappings", .obj r.version_mappings),
      ("sync_history", .arr r.sync_history),
      ("last_sync", r.last_sync)] = r.last_sync := by
  rw [hl]; rfl

/-- Loading a file that holds a record the tool itself wrote recovers that
record exactly: its history already fits the bound and its `last_sync` is a
four-field SyncEvent, so every normalization rule of `_ensure_schema` is
the identity on it. -/
theorem load_roundtrip (r : VRecord)
    (hh : r.sync_history.length ≤ MAX_HISTORY) (ts u n t : String)
    (hl : r.last_sync = .obj [("timestamp", .str ts),
      ("upstream_version", .str u), ("nad_version", .str n),
      ("trigger_type", .str t)]) :
    loadVersionMapping (some r.toJson) = r := by
  obtain ⟨d, vm, sh, ls⟩ := r
  simp only [loadVersionMapping, ensureSchema_toJson ⟨d, vm, sh, ls⟩,
    Option.getD_some]
  simp only at hh hl ⊢
  rw [lastSyncOf_toJson ⟨d, vm, sh, ls⟩ ts u n t hl, lastN_eq_self hh]

/-- Anatomy of a successful `save_version_mapping` run: the arguments
passed validation, the loaded history consisted of mappings, and the
written record is the loaded one with the mapping set, the history
de-duplicated/appended/truncated, and `last_sync` replaced. -/
theorem save_ok_shape {u n t now : String} {f : Option Json} {r : VRecord}
    (h : saveVersionMapping u n t now f = .ok r) :
    u ≠ "" ∧ n ≠ "" ∧
    allObjs (loadVersionMapping f).sync_history = true ∧
    r = { loadVersionMapping f with
            version_mappings :=
              dictSet (loadVersionMapping f).version_mappings u (.str n)
            sync_history := lastN MAX_HISTORY
              (((loadVersionMapping f).sync_history.filter
                  (fun e => !upstreamIs e u)) ++ [mkEvent now u n t])
            last_sync := mkEvent now u n t } := by
  by_cases hu : u = ""
  · simp [saveVersionMapping, hu] at h
  by_cases hn : n = ""
  · simp [saveVersionMapping, hu, hn] at h
  simp only [saveVersionMapping, if_neg hu, if_neg hn, saveBody] at h
  cases hf : filterHistory (loadVersionMapping f).sync_history u with
  | none => rw [hf] at h; simp at h
  | some l =>
      rw [hf] at h
      simp only [Except.ok.injEq] at h
      refine ⟨hu, hn, filterHistory_some_allObjs hf, ?_⟩
      rw [← h, filterHistory_eq_filter hf]

/-- A successful save always succeeds when the loaded history consists of
mappings and the arguments are nonempty. -/
theorem save_ok_of_wf {u n t now : String} {f : Option Json}
    (hu : u ≠ "") (hn : n ≠ "")
    (ha : allObjs (loadVersionMapping f).sync_history = true) :
    saveVersionMapping u n t now f = .ok
      { loadVersionMapping f with
          version_mappings :=
            dictSet (loadVersionMapping f).version_mappings u (.str n)
          sync_history := lastN MAX_HISTORY
            (((loadVersionMapping f).sync_history.filter
                (fun e => !upstreamIs e u)) ++ [mkEvent now u n t])
          last_sync := mkEvent now u n t } := by
  simp only [saveVersionMapping, if_neg hu, if_neg hn, saveBody,
    filterHistory_of_allObjs ha]

/-- The top-level keys of a JSON object. -/
def objKeys : Json → List String
  | .obj kvs => kvs.map Prod.fst
  | _ => []

/-- Top-level field access on a JSON value. -/
def objGet : Json → String → Option Json
  | .obj kvs, k => jlookup kvs k
  | _, _ => none

/-- Is this record's description the given text? -/
def descIs (r : VRecord) (s : String) : Bool :=
  match r.description with
  | .str x => x == s
  | _ => false

/-- A `version_mappings` value on which Python's `dict()` certainly raises:
`None`, a boolean, a number, or a nonempty string. -/
def scalarWrongType : Json → Bool
  | .null => true
  | .bool _ => true
  | .num _ => true
  | .str s => !(s == "")
  | _ => false

theorem pyDict_scalarWrongType {v : Json} (h : scalarWrongType v = true) :
    pyDict v = none := by
  cases v with
  | null => rfl
  | bool b => rfl
  | num n => rfl
  | str s =>
      simp only [scalarWrongType, Bool.not_eq_true', beq_eq_false_iff_ne] at h
      obtain ⟨l⟩ := s
      cases l with
      | nil => exact absurd rfl h
      | cons c cs => rfl
  | arr xs => simp [scalarWrongType] at h
  | obj kvs => simp [scalarWrongType] at h

theorem beq_eq_false_of_startsWith {a s : String}
    (h : startsDash a = false) (hs : startsDash s = true) :
    (a == s) = false := by
  rw [beq_eq_false_iff_ne]
  intro he
  rw [he, hs] at h
  simp at h

theorem ne_of_startsDash {a s : String}
    (h : startsDash a = false) (hs : startsDash s = true) : a ≠ s := by
  intro he
  rw [he, hs] at h
  simp at h

theorem allObjs_append (A B : List Json) :
    allObjs (A ++ B) = (allObjs A && allObjs B) :=
  List.all_append

theorem allObjs_filter {l : List Json} (p : Json → Bool)
    (h : allObjs l = true) : allObjs (l.filter p) = true := by
  rw [allObjs, List.all_eq_true] at h ⊢
  exact fun e he => h e (List.mem_of_mem_filter he)

theorem allObjs_lastN {l : List Json} (n : Nat)
    (h : allObjs l = true) : allObjs (lastN n l) = true := by
  rw [allObjs, List.all_eq_true] at h ⊢
  exact fun e he => h e (mem_lastN he)

theorem jlookup_dictSet (m : List (String × Json)) (k : String) (v : Json) :
    jlookup (dictSet m k v) k = some v := by
  unfold dictSet
  by_cases h : m.any (fun p => p.1 == k)
  · rw [if_pos h]
    induction m with
    | nil => simp at h
    | cons p m' ih =>
        by_cases hp : p.1 == k
        · simp [jlookup, List.find?, hp]
        · simp only [List.any_cons, hp, Bool.false_or] at h
          simpa [jlookup, List.find?, hp] using ih h
  · rw [if_neg h]
    induction m with
    | nil => simp [jlookup, List.find?]
    | cons p m' ih =>
        simp only [List.any_cons, Bool.or_eq_true, not_or] at h
        have hp : (p.1 == k) = false := by
          cases hh : p.1 == k
          · rfl
          · exact absurd hh h.1
        simp only [List.cons_append, jlookup, List.find?, hp]
        have := ih (by simp [h.2])
        simpa [jlookup] using this

/-- C7: `record("", n, ...)` and `record(u, "", ...)` each fail immediately
with the validation error naming the missing argument (缺少上游版本号 /
缺少 NAD 版本号), the result does not depend on the backing file (no file
I/O happened), and a `save-mapping` invocation with an empty argument exits
with status 1 leaving the backing file unmodified. -/
theorem c7_record_validation :
    (∀ (n t now : String) (f : Option Json),
        saveVersionMapping "" n t now f = .error "缺少上游版本号") ∧
    (∀ (u t now : String) (f : Option Json), u ≠ "" →
        saveVersionMapping u "" t now f = .error "缺少 NAD 版本号") ∧
    (∀ (w : World) (n : String), startsDash n = false →
        mainRun ["save-mapping", "", n] w = (1, w.file)) ∧
    (∀ (w : World) (u : String), startsDash u = false → u ≠ "" →
        mainRun ["save-mapping", u, ""] w = (1, w.file)) := by
  refine ⟨?_, ?_, ?_, ?_⟩
  · intro n t now f
    simp [saveVersionMapping]
  · intro u t now f hu
    simp [saveVersionMapping, hu]
  · intro w n h
    have hne : n ≠ "--" := ne_of_startsDash h (by decide)
    have e1 : parseArgs ["save-mapping", "", n] = .ok (some (.saveMapping "" n "manual")) := by
      show parseSaveArgs [n] [""] "manual" = _
      simp [parseSaveArgs, hne, h]
    simp [mainRun, e1, saveVersionMapping]
  · intro w u h hu
    have hne : u ≠ "--" := ne_of_startsDash h (by decide)
    have d1 : startsDash "" = false := by decide
    have e1 : parseArgs ["save-mapping", u, ""] = .ok (some (.saveMapping u "" "manual")) := by
      show parseSaveArgs [u, ""] [] "manual" = _
      simp [parseSaveArgs, hne, h, d1]
    simp [mainRun, e1, saveVersionMapping, hu]

/-- C7 witness: both empty-argument shapes at concrete inputs. -/
theorem c7_record_validation_witness :
    saveVersionMapping "" "x" "manual" "T" none = .error "缺少上游版本号" ∧
    saveVersionMapping "x" "" "manual" "T" none = .error "缺少 NAD 版本号" ∧
    mainRun ["save-mapping", "x", ""] ⟨none, none, "T"⟩ = (1, none) :=
  ⟨c7_record_validation.1 "x" "manual" "T" none,
   c7_record_validation.2.1 "x" "manual" "T" none (by decide),
   c7_record_validation.2.2.2 ⟨none, none, "T"⟩ "x" (by decide) (by decide)⟩

/-- C10: for every backing file the normalized record holds exactly the
four template keys (in template order) and any other key reads as absent:
unrecognized raw fields are dropped by `_ensure_schema` and cannot survive
a load/write cycle. -/
theorem c10_only_known_keys :
    ∀ (f : Option Json) (k : String),
      k ∉ (["description", "version_mappings", "sync_history",
            "last_sync"] : List String) →
      objKeys ((loadVersionMapping f).toJson)
          = ["description", "version_mappings", "sync_history", "last_sync"] ∧
      objGet ((loadVersionMapping f).toJson) k = none := by
  intro f k hk
  simp only [List.mem_cons, List.not_mem_nil, or_false, not_or] at hk
  obtain ⟨h1, h2, h3, h4⟩ := hk
  refine ⟨rfl, ?_⟩
  simp [objGet, VRecord.toJson, jlookup, List.find?,
    beq_eq_false_iff_ne.mpr (Ne.symm h1), beq_eq_false_iff_ne.mpr (Ne.symm h2),
    beq_eq_false_iff_ne.mpr (Ne.symm h3), beq_eq_false_iff_ne.mpr (Ne.symm h4)]

/-- C10 witness: a raw file carrying an extra top-level field. -/
theorem c10_only_known_keys_witness :
    objKeys ((loadVersionMapping (some (.obj [("extra", .num 1),
        ("version_mappings", .obj [])]))).toJson)
      = ["description", "version_mappings", "sync_history", "last_sync"] ∧
    objGet ((loadVersionMapping (some (.obj [("extra", .num 1),
        ("version_mappings", .obj [])]))).toJson) "extra" = none :=
  c10_only_known_keys (some (.obj [("extra", .num 1),
    ("version_mappings", .obj [])])) "extra" (by decide)

/-- C2 counterexample: `"tag_name": "vv33.0.0"` loses BOTH leading `v`s
(`str.lstrip("v")` removes the whole leading run), not just the first one
as the claim states. -/
theorem c2_counterexample :
    extractUpstreamVersion (.obj [("tag_name", .str "vv33.0.0")])
        = some "33.0.0" ∧
    extractUpstreamVersion (.obj [("tag_name", .str "vv33.0.0")])
        ≠ some "v33.0.0" := ⟨rfl, by decide⟩

/-- C2 (amended): the fetcher strips the whole maximal run of leading `v`
characters from the tag; a tag not beginning with `v` is returned
unchanged (and an empty one is absent); prepending a `v` to any tag never
changes the result; an empty or missing tag is absent; `"v33.0.0"` and
`"vv33.0.0"` both normalize to `"33.0.0"`. -/
theorem c2_tag_strip_amended :
    (∀ (c : Char) (cs : List Char), (c == 'v') = false →
        extractUpstreamVersion (.obj [("tag_name", .str (String.mk (c :: cs)))])
          = some (String.mk (c :: cs))) ∧
    (∀ s : String,
        extractUpstreamVersion (.obj [("tag_name", .str ("v" ++ s))])
          = extractUpstreamVersion (.obj [("tag_name", .str s)])) ∧
    extractUpstreamVersion (.obj [("tag_name", .str "")]) = none ∧
    extractUpstreamVersion (.obj []) = none ∧
    extractUpstreamVersion (.obj [("tag_name", .str "v33.0.0")])
        = some "33.0.0" ∧
    extractUpstreamVersion (.obj [("tag_name", .str "vv33.0.0")])
        = some "33.0.0" := by
  refine ⟨?_, ?_, rfl, rfl, rfl, rfl⟩
  · intro c cs hc
    have hne : String.mk (c :: cs) ≠ "" := fun h => by
      simpa using congrArg String.data h
    simp [extractUpstreamVersion, jlookup, List.find?, pyFalsy, lstripV,
      List.dropWhile_cons, hc, hne]
  · intro s
    by_cases hs : s = ""
    · subst hs; rfl
    · have hv : ("v" ++ s) ≠ "" := fun h => by
        simpa using congrArg String.data h
      have hd : ("v" ++ s).data = 'v' :: s.data := rfl
      simp [extractUpstreamVersion, jlookup, List.find?, pyFalsy, lstripV,
        hd, List.dropWhile_cons, hs, hv]

/-- C2 witness: a no-leading-`v` tag is returned unchanged. -/
theorem c2_tag_strip_amended_witness :
    extractUpstreamVersion (.obj [("tag_name",
        .str (String.mk ['3', '3', '.', '0']))])
      = some (String.mk ['3', '3', '.', '0']) :=
  c2_tag_strip_amended.1 '3' ['3', '.', '0'] (by decide)

/-- C1 counterexample: a wrong-type `version_mappings` (here `null`) makes
`dict()` raise inside `_ensure_schema`; `load_version_mapping` catches it
and returns the FULL default record, so the raw `description` `"keep"` is
discarded even though the per-field rule alone (`descOf`) would keep it. -/
theorem c1_counterexample :
    loadVersionMapping (some (.obj [("description", .str "keep"),
        ("version_mappings", .null)])) = defaultRecord ∧
    descIs (loadVersionMapping (some (.obj [("description", .str "keep"),
        ("version_mappings", .null)]))) "keep" = false ∧
    descOf [("description", .str "keep"), ("version_mappings", .null)]
        = .str "keep" :=
  ⟨rfl, by decide, rfl⟩

/-- C1 (amended): when `version_mappings` is absent it defaults to the
empty mapping and the other three fields are still normalized
independently by their own rules; likewise when it is present as a
mapping; but when it is present with a wrong-type value that `dict()`
rejects (`null`, a boolean, a number, or a nonempty string), normalization
raises and load falls back to the full default record, discarding the
other raw fields. -/
theorem c1_load_defaulting_amended :
    (∀ kvs : List (String × Json), jlookup kvs "version_mappings" = none →
        loadVersionMapping (some (.obj kvs))
          = { description := descOf kvs, version_mappings := [],
              sync_history := histOf kvs, last_sync := lastSyncOf kvs }) ∧
    (∀ (kvs m : List (String × Json)),
        jlookup kvs "version_mappings" = some (.obj m) →
        loadVersionMapping (some (.obj kvs))
          = { description := descOf kvs, version_mappings := m,
              sync_history := histOf kvs, last_sync := lastSyncOf kvs }) ∧
    (∀ (kvs : List (String × Json)) (v : Json),
        jlookup kvs "version_mappings" = some v → scalarWrongType v = true →
        loadVersionMapping (some (.obj kvs)) = defaultRecord) := by
  refine ⟨?_, ?_, ?_⟩
  · intro kvs h
    simp [loadVersionMapping, ensureSchema, h, pyDict]
  · intro kvs m h
    simp [loadVersionMapping, ensureSchema, h, pyDict]
  · intro kvs v h hv
    simp [loadVersionMapping, ensureSchema, h, pyDict_scalarWrongType hv]

/-- C1 witness: an absent `version_mappings` leaves the other fields
normalized by their own rules. -/
theorem c1_load_defaulting_amended_witness :
    loadVersionMapping (some (.obj [("sync_history", .arr [.num 7])]))
      = { description := .str descDefault, version_mappings := [],
          sync_history := [.num 7], last_sync := placeholderLastSync } :=
  c1_load_defaulting_amended.1 [("sync_history", .arr [.num 7])] rfl

/-- C3 counterexample: an unrecognized subcommand makes argparse error out
with exit status 2 (usage plus message on stderr), not the claimed
status 0. -/
theorem c3_counterexample :
    mainRun ["bogus"] ⟨none, none, ""⟩ = (2, none) ∧
    (mainRun ["bogus"] ⟨none, none, ""⟩).1 ≠ 0 := ⟨rfl, by decide⟩

/-- C3 (amended): invoking with no arguments prints the help text and
exits 0; invoking with an unrecognized first positional (not an option
token and none of the three subcommands) makes argparse reject it with
exit status 2, leaving the backing file untouched in both cases. -/
theorem c3_dispatch_amended :
    (∀ w : World, mainRun [] w = (0, w.file)) ∧
    (∀ (a : String) (rest : List String) (w : World),
        startsDash a = false → a ≠ "get-upstream" → a ≠ "save-mapping" →
        a ≠ "list" → mainRun (a :: rest) w = (2, w.file)) := by
  refine ⟨fun w => rfl, ?_⟩
  intro a rest w h h1 h2 h3
  have e1 : parseArgs (a :: rest) = .err := by
    simp [parseArgs, h, parseCommandTok, h1, h2, h3]
  simp [mainRun, e1]

/-- C3 witness: a concrete unrecognized subcommand exits 2. -/
theorem c3_dispatch_amended_witness :
    mainRun ["status"] ⟨none, none, ""⟩ = (2, none) :=
  c3_dispatch_amended.2 "status" [] ⟨none, none, ""⟩ (by decide) (by decide)
    (by decide) (by decide)

/-- C9: any record the write operation has produced (i.e. the `.ok` result
of a save) survives a load unchanged, so writing the loaded record back
serializes to exactly the same bytes as the original file
(`json.dump(..., indent=2, ensure_ascii=False)` is deterministic). -/
theorem c9_load_write_roundtrip :
    ∀ (u n t now : String) (f : Option Json) (r : VRecord),
      saveVersionMapping u n t now f = .ok r →
      loadVersionMapping (some r.toJson) = r ∧
      writeBytes (loadVersionMapping (some r.toJson)) = writeBytes r := by
  intro u n t now f r h
  obtain ⟨hu, hn, ha, hr⟩ := save_ok_shape h
  have hlen : r.sync_history.length ≤ MAX_HISTORY := by
    rw [hr]
    exact lastN_length_le _ _
  have hls : r.last_sync = .obj [("timestamp", .str now),
      ("upstream_version", .str u), ("nad_version", .str n),
      ("trigger_type", .str (if t = "" then "auto" else t))] := by
    rw [hr]; rfl
  have := load_roundtrip r hlen now u n (if t = "" then "auto" else t) hls
  exact ⟨this, by rw [this]⟩

/-- C9 witness: a concrete save, reloaded, is byte-for-byte stable. -/
theorem c9_load_write_roundtrip_witness :
    loadVersionMapping (some (VRecord.toJson ⟨.str descDefault,
        [("a", .str "b")], [mkEvent "T" "a" "b" "m"],
        mkEvent "T" "a" "b" "m"⟩))
      = ⟨.str descDefault, [("a", .str "b")], [mkEvent "T" "a" "b" "m"],
         mkEvent "T" "a" "b" "m"⟩ :=
  (c9_load_write_roundtrip "a" "b" "m" "T" none
    ⟨.str descDefault, [("a", .str "b")], [mkEvent "T" "a" "b" "m"],
     mkEvent "T" "a" "b" "m"⟩ rfl).1

/-- C8: in every state reachable through the tool's own operations the
loaded `last_sync` equals the SyncEvent most recently appended by a
record operation, or the all-empty placeholder when none was ever
recorded. -/
theorem c8_last_sync_invariant :
    ∀ (f : Option Json) (evs : List Json), Reach f evs →
      (loadVersionMapping f).last_sync = (evs.getLast?).getD placeholderLastSync := by
  intro f evs h
  induction h with
  | init => rfl
  | @save f' evs' u n t now r _ hs _ =>
      obtain ⟨hu, hn, ha, hr⟩ := save_ok_shape hs
      have hlen : r.sync_history.length ≤ MAX_HISTORY := by
        rw [hr]; exact lastN_length_le _ _
      have hls : r.last_sync = .obj [("timestamp", .str now),
          ("upstream_version", .str u), ("nad_version", .str n),
          ("trigger_type", .str (if t = "" then "auto" else t))] := by
        rw [hr]; rfl
      rw [load_roundtrip r hlen now u n (if t = "" then "auto" else t) hls,
        List.getLast?_concat, Option.getD_some, hls]
      rfl

/-- C8 witness: the invariant at the state reached by one concrete save. -/
theorem c8_last_sync_invariant_witness :
    (loadVersionMapping (some (VRecord.toJson ⟨.str descDefault,
        [("a", .str "b")], [mkEvent "T" "a" "b" "m"],
        mkEvent "T" "a" "b" "m"⟩))).last_sync
      = (([mkEvent "T" "a" "b" "m"] : List Json).getLast?).getD
          placeholderLastSync :=
  c8_last_sync_invariant _ _
    (@Reach.save none [] "a" "b" "m" "T"
      ⟨.str descDefault, [("a", .str "b")], [mkEvent "T" "a" "b" "m"],
       mkEvent "T" "a" "b" "m"⟩ Reach.init rfl)

theorem upstreamIs_mkEvent (now u n t : String) :
    upstreamIs (mkEvent now u n t) u = true :=
  beq_self_eq_true u

/-- C6: recording the same upstream version twice leaves exactly one
history entry for it — the second event, sitting at the end — and the
mapping holds the second downstream version. -/
theorem c6_same_upstream_twice :
    ∀ (u v1 v2 t1 t2 now1 now2 : String) (f : Option Json) (r1 r2 : VRecord),
      saveVersionMapping u v1 t1 now1 f = .ok r1 →
      saveVersionMapping u v2 t2 now2 (some r1.toJson) = .ok r2 →
      r2.sync_history.filter (fun e => upstreamIs e u)
          = [mkEvent now2 u v2 t2] ∧
      r2.sync_history.getLast? = some (mkEvent now2 u v2 t2) ∧
      jlookup r2.version_mappings u = some (.str v2) := by
  intro u v1 v2 t1 t2 now1 now2 f r1 r2 h1 h2
  obtain ⟨hu2, hn2, ha2, hr2⟩ := save_ok_shape h2
  have step : r2.sync_history = lastN (MAX_HISTORY - 1)
      ((loadVersionMapping (some r1.toJson)).sync_history.filter
        (fun e => !upstreamIs e u)) ++ [mkEvent now2 u v2 t2] := by
    rw [hr2]
    show lastN MAX_HISTORY (_ ++ [mkEvent now2 u v2 t2]) = _
    rw [lastN_append]
    rfl
  refine ⟨?_, ?_, ?_⟩
  · rw [step, List.filter_append]
    have hl : (lastN (MAX_HISTORY - 1)
        ((loadVersionMapping (some r1.toJson)).sync_history.filter
          (fun e => !upstreamIs e u))).filter (fun e => upstreamIs e u)
        = [] := by
      rw [List.filter_eq_nil_iff]
      intro e he
      have hm := mem_lastN he
      have := List.of_mem_filter hm
      simp only [Bool.not_eq_true'] at this
      simp [this]
    rw [hl]
    simp [List.filter, upstreamIs_mkEvent]
  · rw [step]
    exact List.getLast?_concat _
  · rw [hr2]
    exact jlookup_dictSet _ _ _

/-- C6 witness: two concrete saves for the same upstream version. -/
theorem c6_same_upstream_twice_witness :
    (VRecord.sync_history ⟨.str descDefault, [("a", .str "c")],
        [mkEvent "T2" "a" "c" "m"], mkEvent "T2" "a" "c" "m"⟩).filter
      (fun e => upstreamIs e "a") = [mkEvent "T2" "a" "c" "m"] :=
  (c6_same_upstream_twice "a" "b" "c" "m" "m" "T1" "T2" none
    ⟨.str descDefault, [("a", .str "b")], [mkEvent "T1" "a" "b" "m"],
     mkEvent "T1" "a" "b" "m"⟩
    ⟨.str descDefault, [("a", .str "c")], [mkEvent "T2" "a" "c" "m"],
     mkEvent "T2" "a" "c" "m"⟩ rfl rfl).1

theorem snd_mem_of_mem_enumFrom {l : List α} :
    ∀ {n : Nat} {p : Nat × α}, p ∈ l.enumFrom n → p.2 ∈ l := by
  induction l with
  | nil => intro n p h; simp [List.enumFrom] at h
  | cons x xs ih =>
      intro n p h
      rcases List.mem_cons.mp h with h | h
      · subst h; exact List.mem_cons_self _ _
      · exact List.mem_cons_of_mem _ (ih h)

theorem entryLine_ok {e : Json} (i : Nat) (h : eventKeysOk e = true) :
    ∃ s, entryLine i e = .ok s := by
  cases e with
  | obj m =>
      simp only [eventKeysOk, Bool.and_eq_true, Option.isSome_iff_exists] at h
      obtain ⟨⟨⟨⟨ts, hts⟩, ⟨uv, huv⟩⟩, ⟨nv, hnv⟩⟩, ⟨tt, htt⟩⟩ := h
      simp only [entryLine, hts, huv, hnv, htt]
      exact ⟨_, rfl⟩
  | null => simp [eventKeysOk] at h
  | bool b => simp [eventKeysOk] at h
  | num k => simp [eventKeysOk] at h
  | str s => simp [eventKeysOk] at h
  | arr xs => simp [eventKeysOk] at h

theorem exceptMapM_ok {α β ε : Type} (f : α → Except ε β) :
    ∀ (xs : List α), (∀ p ∈ xs, ∃ s, f p = .ok s) →
      ∃ ys, xs.mapM f = .ok ys ∧ ys.length = xs.length := by
  intro xs
  induction xs with
  | nil => intro _; exact ⟨[], rfl, rfl⟩
  | cons x xs ih =>
      intro h
      obtain ⟨s, hs⟩ := h x (List.mem_cons_self _ _)
      obtain ⟨ys, hys, hlen⟩ := ih (fun p hp => h p (List.mem_cons_of_mem _ hp))
      refine ⟨s :: ys, ?_, by simp [hlen]⟩
      rw [List.mapM_cons, hs, hys]
      rfl

theorem insertByKey_length (p : String × Json) (l : List (String × Json)) :
    (insertByKey p l).length = l.length + 1 := by
  induction l with
  | nil => rfl
  | cons q qs ih =>
      by_cases h : p.1 < q.1
      · simp [insertByKey, h]
      · simp [insertByKey, h, ih]

theorem sortByKey_length (kvs : List (String × Json)) :
    (sortByKey kvs).length = kvs.length := by
  suffices h : ∀ acc : List (String × Json),
      (kvs.foldl (fun acc p => insertByKey p acc) acc).length
        = acc.length + kvs.length by
    simpa using h []
  induction kvs with
  | nil => intro acc; simp
  | cons p ps ih =>
      intro acc
      simp only [List.foldl_cons, ih (insertByKey p acc), insertByKey_length,
        List.length_cons]
      omega

/-- C4 counterexample: a legacy history entry missing the `timestamp`
field makes `list_mappings` raise `KeyError`; the uncaught exception ends
the process with exit status 1, not the claimed 0. -/
theorem c4_counterexample :
    (listMappings (some (.obj [("sync_history",
        .arr [.obj [("upstream_version", .str "1")]])]))).isOk = false ∧
    mainRun ["list"] ⟨some (.obj [("sync_history",
        .arr [.obj [("upstream_version", .str "1")]])]), none, ""⟩
      = (1, some (.obj [("sync_history",
          .arr [.obj [("upstream_version", .str "1")]])])) ∧
    (mainRun ["list"] ⟨some (.obj [("sync_history",
        .arr [.obj [("upstream_version", .str "1")]])]), none, ""⟩).1 ≠ 0 :=
  ⟨rfl, rfl, by decide⟩

/-- C4 (amended): for every backing file within the data-model domain
(`fileVmSafe`: the raw `version_mappings` never exercises Python's
non-string dict keys) whose normalized history entries are mappings
carrying all four SyncEvent fields — in particular when an upstream
version appears in the mapping without a history entry or vice versa —
the `list` command prints its report (the "no data yet" notice exactly
when both mapping and history are empty), performs no mutation, and
exits 0; a history entry missing a SyncEvent field instead raises,
exiting 1. -/
theorem c4_list_tolerates_amended :
    ∀ w : World, fileVmSafe w.file = true →
      (∀ e ∈ (loadVersionMapping w.file).sync_history, eventKeysOk e = true) →
      mainRun ["list"] w = (0, w.file) ∧
      (listMappings w.file = .ok [noDataNotice] ↔
        ((loadVersionMapping w.file).sync_history = [] ∧
         (loadVersionMapping w.file).version_mappings = [])) := by
  intro w _hvm h
  have hp : parseArgs ["list"] = Parsed.ok (some Cmd.listCmd) := rfl
  by_cases he : (loadVersionMapping w.file).sync_history.isEmpty &&
      (loadVersionMapping w.file).version_mappings.isEmpty
  · have hl : listMappings w.file = .ok [noDataNotice] := by
      simp [listMappings, he]
    have h12 := he
    rw [Bool.and_eq_true] at h12
    refine ⟨by simp [mainRun, hp, hl], ?_⟩
    simp [hl, List.isEmpty_iff.mp h12.1, List.isEmpty_iff.mp h12.2]
  · have hbig : ∃ out, listMappings w.file = .ok out ∧ 2 ≤ out.length := by
      by_cases hh : (loadVersionMapping w.file).sync_history.isEmpty
      · have hv : (loadVersionMapping w.file).version_mappings.isEmpty = false := by
          cases hvv : (loadVersionMapping w.file).version_mappings.isEmpty
          · rfl
          · exact absurd (by simp [hh, hvv]) he
        have hvl : 1 ≤ (loadVersionMapping w.file).version_mappings.length := by
          cases hm : (loadVersionMapping w.file).version_mappings
          · rw [hm] at hv; simp at hv
          · simp
        have hout : listMappings w.file = .ok ("\n当前映射：" ::
            (sortByKey (loadVersionMapping w.file).version_mappings).map
              mappingLine) := by
          simp only [listMappings, he, hh, hv]
          simp [he, hh, hv]
        refine ⟨_, hout, ?_⟩
        simp only [List.length_cons, List.length_map, sortByKey_length]
        omega
      · obtain ⟨ls, hls, hlen⟩ := exceptMapM_ok
          (fun p : Nat × Json => entryLine p.1 p.2)
          ((loadVersionMapping w.file).sync_history.reverse.enumFrom 1)
          (fun p hp2 => entryLine_ok p.1
            (h p.2 (List.mem_reverse.mp (snd_mem_of_mem_enumFrom hp2))))
        have hout : listMappings w.file = .ok
            (("版本映射历史（最近记录优先）：" :: ls) ++
              (if (loadVersionMapping w.file).version_mappings.isEmpty then []
               else "\n当前映射：" ::
                 (sortByKey (loadVersionMapping w.file).version_mappings).map
                   mappingLine)) := by
          simp only [listMappings]
          rw [if_neg (by simpa using he), if_neg (by simpa using hh), hls]
        refine ⟨_, hout, ?_⟩
        have h1 : 1 ≤ (loadVersionMapping w.file).sync_history.length := by
          cases hm : (loadVersionMapping w.file).sync_history
          · rw [hm] at hh; simp at hh
          · simp
        simp only [List.length_append, List.length_cons, hlen,
          List.enumFrom_length, List.length_reverse]
        omega
    obtain ⟨out, h1, hlen2⟩ := hbig
    refine ⟨by simp [mainRun, hp, h1], ?_⟩
    constructor
    · intro hok
      rw [h1] at hok
      injection hok with hok
      rw [hok] at hlen2
      simp at hlen2
    · rintro ⟨hh2, hv2⟩
      exact absurd (by simp [hh2, hv2]) he

/-- C4 witness: a well-formed store (one complete history entry plus one
mapping) lists fine with exit 0, and a fully empty store reports the
notice. -/
theorem c4_list_tolerates_amended_witness :
    mainRun ["list"] ⟨some (VRecord.toJson ⟨.str descDefault,
        [("a", .str "b")], [mkEvent "T" "a" "b" "m"],
        mkEvent "T" "a" "b" "m"⟩), none, ""⟩
      = (0, some (VRecord.toJson ⟨.str descDefault, [("a", .str "b")],
          [mkEvent "T" "a" "b" "m"], mkEvent "T" "a" "b" "m"⟩)) ∧
    (listMappings none = .ok [noDataNotice] ↔
      ((loadVersionMapping none).sync_history = [] ∧
       (loadVersionMapping none).version_mappings = [])) :=
  ⟨(c4_list_tolerates_amended ⟨some (VRecord.toJson ⟨.str descDefault,
      [("a", .str "b")], [mkEvent "T" "a" "b" "m"],
      mkEvent "T" "a" "b" "m"⟩), none, ""⟩ (by decide) (by decide)).1,
   (c4_list_tolerates_amended ⟨none, none, ""⟩ (by decide) (by decide)).2⟩

theorem lastN_lastN_append (n : Nat) (A B : List α) :
    lastN n (lastN n A ++ B) = lastN n (A ++ B) := by
  rw [lastN_append, lastN_append n A B, lastN_lastN (Nat.sub_le n B.length)]

theorem load_hist_le (f : Option Json) :
    (loadVersionMapping f).sync_history.length ≤ MAX_HISTORY := by
  cases f with
  | none => simp [loadVersionMapping, defaultRecord, MAX_HISTORY]
  | some raw =>
      simp only [loadVersionMapping]
      cases hes : ensureSchema raw with
      | none => simp [defaultRecord, MAX_HISTORY]
      | some r =>
          simp only [Option.getD_some]
          cases raw with
          | obj kvs =>
              simp only [ensureSchema] at hes
              cases hpd : pyDict ((jlookup kvs "version_mappings").getD (.obj [])) with
              | none => rw [hpd] at hes; simp at hes
              | some vm =>
                  rw [hpd] at hes
                  simp only [Option.some.injEq] at hes
                  rw [← hes]
                  show (histOf kvs).length ≤ MAX_HISTORY
                  unfold histOf
                  split
                  · exact lastN_length_le _ _
                  · simp
          | null => simp [ensureSchema] at hes
          | bool b => simp [ensureSchema] at hes
          | num k => simp [ensureSchema] at hes
          | str s => simp [ensureSchema] at hes
          | arr xs => simp [ensureSchema] at hes

theorem saveBody_of_allObjs {d : VRecord} (u n t now : String)
    (ha : allObjs d.sync_history = true) :
    saveBody u n t now d = .ok { d with
      version_mappings := dictSet d.version_mappings u (.str n)
      sync_history := lastN MAX_HISTORY
        (d.sync_history.filter (fun e => !upstreamIs e u) ++ [mkEvent now u n t])
      last_sync := mkEvent now u n t } := by
  unfold saveBody
  rw [filterHistory_of_allObjs ha]

theorem recordStep_of_allObjs {d : VRecord} {c : Call}
    (ha : allObjs d.sync_history = true) :
    recordStep d c = { d with
      version_mappings := dictSet d.version_mappings c.u (.str c.n)
      sync_history := lastN MAX_HISTORY
        (d.sync_history.filter (fun e => !upstreamIs e c.u) ++ [c.event])
      last_sync := c.event } := by
  unfold recordStep
  rw [saveBody_of_allObjs c.u c.n c.t c.now ha]
  rfl

theorem allObjs_recordStep {d : VRecord} {c : Call}
    (ha : allObjs d.sync_history = true) :
    allObjs (recordStep d c).sync_history = true := by
  rw [recordStep_of_allObjs ha]
  show allObjs (lastN MAX_HISTORY _) = true
  apply allObjs_lastN
  rw [allObjs_append, allObjs_filter _ ha]
  rfl

/-- The suffix invariant of the history under a run of record steps: after
processing calls with pairwise-distinct upstream versions from a state
whose history splits as `zs ++ ys` with the `ys` part untouched by every
upcoming de-duplication, the final history is some well-formed prefix
followed by the trailing `MAX_HISTORY` slice of `ys` plus the new events,
and it still fits the bound. -/
theorem runSteps_suffix :
    ∀ (cs : List Call) (d : VRecord) (zs ys : List Json),
      (cs.map Call.u).Nodup →
      d.sync_history = zs ++ ys →
      allObjs d.sync_history = true →
      d.sync_history.length ≤ MAX_HISTORY →
      (∀ e ∈ ys, ∀ c ∈ cs, upstreamIs e c.u = false) →
      ∃ ws, (runSteps cs d).sync_history
          = ws ++ lastN MAX_HISTORY (ys ++ cs.map Call.event) ∧
        allObjs (runSteps cs d).sync_history = true ∧
        (runSteps cs d).sync_history.length ≤ MAX_HISTORY := by
  intro cs
  induction cs with
  | nil =>
      intro d zs ys hnd hsplit ha hlen hys
      refine ⟨zs, ?_, ha, hlen⟩
      simp only [runSteps, List.foldl_nil, List.map_nil, List.append_nil]
      rw [hsplit]
      congr 1
      rw [lastN_eq_self]
      calc ys.length ≤ (zs ++ ys).length := by simp
        _ ≤ MAX_HISTORY := hsplit ▸ hlen
  | cons c cs ih =>
      intro d zs ys hnd hsplit ha hlen hys
      have hndc : (∀ x ∈ cs, ¬x.u = c.u) ∧ (cs.map Call.u).Nodup := by
        simpa using hnd
      have hysfil : ys.filter (fun e => !upstreamIs e c.u) = ys := by
        rw [List.filter_eq_self]
        intro e he
        simp [hys e he c (List.mem_cons_self _ _)]
      have hh1 : (recordStep d c).sync_history
          = lastN (MAX_HISTORY - (ys ++ [c.event]).length)
              (zs.filter (fun e => !upstreamIs e c.u))
            ++ lastN MAX_HISTORY (ys ++ [c.event]) := by
        rw [recordStep_of_allObjs ha]
        show lastN MAX_HISTORY (d.sync_history.filter _ ++ [c.event]) = _
        rw [hsplit, List.filter_append, hysfil, List.append_assoc, lastN_append]
      have ha1 : allObjs (recordStep d c).sync_history = true :=
        allObjs_recordStep ha
      have hlen1 : (recordStep d c).sync_history.length ≤ MAX_HISTORY := by
        rw [recordStep_of_allObjs ha]
        exact lastN_length_le _ _
      have hys1 : ∀ e ∈ lastN MAX_HISTORY (ys ++ [c.event]),
          ∀ c2 ∈ cs, upstreamIs e c2.u = false := by
        intro e he c2 hc2
        rcases List.mem_append.mp (mem_lastN he) with h1 | h1
        · exact hys e h1 c2 (List.mem_cons_of_mem _ hc2)
        · have he2 : e = c.event := by simpa using h1
          subst he2
          have hne : c.u ≠ c2.u := fun hq => hndc.1 c2 hc2 hq.symm
          exact beq_eq_false_iff_ne.mpr hne
      obtain ⟨ws, hws, ha2, hlen2⟩ := ih (recordStep d c) _ _ hndc.2 hh1 ha1
        hlen1 hys1
      have hrs : runSteps (c :: cs) d = runSteps cs (recordStep d c) := rfl
      refine ⟨ws, ?_, by rw [hrs]; exact ha2, by rw [hrs]; exact hlen2⟩
      rw [hrs, hws, lastN_lastN_append, List.append_assoc]
      rfl

/-- Sequential `save-mapping` invocations acting on the backing file
deserve a record-level view: each successful write reloads to exactly the
record that was written. -/
theorem load_runCalls :
    ∀ (cs : List Call) (f : Option Json),
      (∀ c ∈ cs, c.u ≠ "" ∧ c.n ≠ "") →
      allObjs (loadVersionMapping f).sync_history = true →
      loadVersionMapping (runCalls cs f) = runSteps cs (loadVersionMapping f) := by
  intro cs
  induction cs with
  | nil => intro f _ _; rfl
  | cons c cs ih =>
      intro f hval ha
      obtain ⟨hu, hn⟩ := hval c (List.mem_cons_self _ _)
      have hsave : saveVersionMapping c.u c.n c.t c.now f
          = .ok (recordStep (loadVersionMapping f) c) := by
        unfold saveVersionMapping
        rw [if_neg hu, if_neg hn, saveBody_of_allObjs c.u c.n c.t c.now ha,
          recordStep_of_allObjs ha]
        rfl
      have honce : runCalls (c :: cs) f
          = runCalls cs (some (recordStep (loadVersionMapping f) c).toJson) := by
        show runCalls cs (recordOnce f c) = _
        unfold recordOnce
        rw [hsave]
      have hload : loadVersionMapping
          (some (recordStep (loadVersionMapping f) c).toJson)
          = recordStep (loadVersionMapping f) c :=
        load_roundtrip (recordStep (loadVersionMapping f) c)
          (by rw [recordStep_of_allObjs ha]; exact lastN_length_le _ _)
          c.now c.u c.n (if c.t = "" then "auto" else c.t)
          (by rw [recordStep_of_allObjs ha]; rfl)
      rw [honce, ih _ (fun c2 hc2 => hval c2 (List.mem_cons_of_mem _ hc2))
        (by rw [hload]; exact allObjs_recordStep ha), hload]
      rfl

/-- C5: every write of the record operation leaves `sync_history` within
the 20-entry bound, and any more than 20 sequential record invocations
with distinct nonempty upstream versions, starting from any data-model
state (history entries are mappings; `fileVmSafe` — the spec's data model
makes `version_mappings` a string-keyed mapping, so no file within it
exercises Python's non-string dict keys), leave exactly the 20 most
recent events, oldest first. -/
theorem c5_history_bound :
    (∀ (u n t now : String) (f : Option Json) (r : VRecord),
        saveVersionMapping u n t now f = .ok r →
        r.sync_history.length ≤ MAX_HISTORY) ∧
    (∀ (cs : List Call) (f : Option Json), fileVmSafe f = true →
        MAX_HISTORY < cs.length →
        (∀ c ∈ cs, c.u ≠ "" ∧ c.n ≠ "") → (cs.map Call.u).Nodup →
        allObjs (loadVersionMapping f).sync_history = true →
        (loadVersionMapping (runCalls cs f)).sync_history
            = lastN MAX_HISTORY (cs.map Call.event) ∧
        (loadVersionMapping (runCalls cs f)).sync_history.length
            = MAX_HISTORY) := by
  constructor
  · intro u n t now f r h
    obtain ⟨_, _, _, hr⟩ := save_ok_shape h
    rw [hr]
    exact lastN_length_le _ _
  · intro cs f _hvm hbig hval hnd ha
    have hbridge := load_runCalls cs f hval ha
    obtain ⟨ws, hws, ha2, hlen2⟩ := runSteps_suffix cs (loadVersionMapping f)
      (loadVersionMapping f).sync_history [] hnd (by simp) ha (load_hist_le f)
      (fun e he => absurd he (List.not_mem_nil e))
    rw [List.nil_append] at hws
    have hevs : (lastN MAX_HISTORY (cs.map Call.event)).length = MAX_HISTORY := by
      rw [lastN_length, List.length_map]
      omega
    have hws0 : ws = [] := by
      rw [hws, List.length_append, hevs] at hlen2
      exact List.length_eq_zero.mp (by omega)
    rw [hws0, List.nil_append] at hws
    rw [hbridge]
    exact ⟨hws, by rw [hws]; exact hevs⟩

/-- Twenty-one concrete record invocations with distinct upstream
versions. -/
def csDemo : List Call :=
  ["a", "b", "c", "d", "e", "f", "g", "h", "i", "j", "k", "l", "m", "n",
   "o", "p", "q", "r", "s", "u", "w"].map (fun s => ⟨s, "x", "t", "T"⟩)

/-- C5 witness: the bound after one concrete write, and the exact final
history length after 21 distinct sequential records from the empty store. -/
theorem c5_history_bound_witness :
    (VRecord.sync_history ⟨.str descDefault, [("a", .str "b")],
        [mkEvent "T" "a" "b" "m"], mkEvent "T" "a" "b" "m"⟩).length
      ≤ MAX_HISTORY ∧
    (loadVersionMapping (runCalls csDemo none)).sync_history.length
      = MAX_HISTORY :=
  ⟨c5_history_bound.1 "a" "b" "m" "T" none
      ⟨.str descDefault, [("a", .str "b")], [mkEvent "T" "a" "b" "m"],
       mkEvent "T" "a" "b" "m"⟩ rfl,
   (c5_history_bound.2 csDemo none rfl (by decide) (by decide) (by decide)
      rfl).2⟩
